import Mathlib

/-!
Verification of the account-scoped state-change watch pipeline
(near-examples/near-lake-accounts-watcher, src/main.rs).

The embedding mirrors `src/main.rs`: the watch-list construction in `main`
(split on ',', validate each entry as a NEAR `AccountId`, render back to a
`String`), the per-block handler `handle_streamer_message`, and the matcher
`is_change_watched`, which serializes a state change to JSON and looks up
`["change"]["account_id"]`.  Panics (`expect`/`unwrap`) are modelled as
`Option` failure.  The record model (`StateChangeWithCauseView` and friends)
comes from the `near_indexer_primitives::views` types the program consumes,
with serde's adjacently tagged encoding (`tag = "type"`, `content = "change"`).
-/

/-- Minimal model of `serde_json::Value`. -/
inductive Json where
  | null
  | bool (b : Bool)
  | num (n : Nat)
  | str (s : String)
  | arr (elems : List Json)
  | obj (fields : List (String × Json))

/-- Field lookup, `value["key"]` in `serde_json`: on an object, the value of
the first field with the given key; `Null` when absent or not an object. -/
def Json.index : Json → String → Json
  | .obj fields, key =>
    match fields.find? (fun p => p.1 == key) with
    | some p => p.2
    | none => .null
  | _, _ => .null

/-- `Value::as_str`: `some` exactly on JSON strings. -/
def Json.asStr : Json → Option String
  | .str s => some s
  | _ => none

/-- A NEAR account identifier: a newtype over the raw string, as in the
`near-account-id` crate (`AccountId(Box<str>)`). -/
structure AccountId where
  id : String
deriving DecidableEq, Repr

/-- Non-separator characters allowed in an account id: `a..z` and `0..9`. -/
def isAccountIdChar (c : Char) : Bool :=
  ('a' ≤ c && c ≤ 'z') || ('0' ≤ c && c ≤ '9')

/-- Separator characters allowed in an account id: `-`, `_`, `.`. -/
def isAccountIdSeparator (c : Char) : Bool :=
  c == '-' || c == '_' || c == '.'

/-- Modelled from the spec: the chain's account-naming grammar used by
`AccountId::from_str` (the `near-account-id` dependency, not part of
`src/`): separators must not be adjacent, leading, or trailing, and every
other character is a lowercase letter or digit.  The boolean argument says
whether the previous character was a separator (initially treated as true,
so a leading separator is rejected). -/
def validAccountChars : Bool → List Char → Bool
  | lastSep, [] => !lastSep
  | lastSep, c :: rest =>
    if isAccountIdChar c then
      validAccountChars false rest
    else if isAccountIdSeparator c then
      if lastSep then false else validAccountChars true rest
    else
      false

/-- Modelled from the spec: account-id validation (length 2..=64 bytes and
the character/separator grammar), as delegated by `src/main.rs` line 38 to
`AccountId::from_str`. -/
def AccountId.validate (s : String) : Bool :=
  decide (2 ≤ s.utf8ByteSize) && decide (s.utf8ByteSize ≤ 64)
    && validAccountChars true s.data

/-- `AccountId::from_str`: succeeds exactly on strings passing validation,
wrapping the unchanged string. -/
def AccountId.from_str (s : String) : Option AccountId :=
  if AccountId.validate s then some ⟨s⟩ else none

/-- `AccountId`'s `Display`/`to_string`: the inner string, unchanged. -/
def AccountId.render (a : AccountId) : String := a.id

/-- Payload of an `AccountUpdate` change (`AccountView`); its fields are
irrelevant to account extraction, only their serialized presence matters. -/
structure AccountView where
  amount : Nat
  locked : Nat
  code_hash : String
  storage_usage : Nat
deriving DecidableEq, Repr

def AccountView.toJson (a : AccountView) : Json :=
  .obj [("amount", .num a.amount), ("locked", .num a.locked),
        ("code_hash", .str a.code_hash), ("storage_usage", .num a.storage_usage)]

/-- Public key rendered form (opaque for this development). -/
structure PublicKey where
  key : String
deriving DecidableEq, Repr

/-- Payload of an access-key change (`AccessKeyView`). -/
structure AccessKeyView where
  nonce : Nat
  permission : String
deriving DecidableEq, Repr

def AccessKeyView.toJson (k : AccessKeyView) : Json :=
  .obj [("nonce", .num k.nonce), ("permission", .str k.permission)]

/-- `StateChangeCauseView`, opaque here: its variants carry no account id and
the watcher never reads it. -/
structure StateChangeCauseView where
  tag : String
deriving DecidableEq, Repr

def StateChangeCauseView.toJson (c : StateChangeCauseView) : Json :=
  .obj [("type", .str c.tag)]

/-- `near_indexer_primitives::views::StateChangeValueView`: the closed set of
eight state-change kinds; every variant carries the owning `account_id`. -/
inductive StateChangeValueView where
  | accountUpdate (account_id : AccountId) (account : AccountView)
  | accountDeletion (account_id : AccountId)
  | accessKeyUpdate (account_id : AccountId) (public_key : PublicKey)
      (access_key : AccessKeyView)
  | accessKeyDeletion (account_id : AccountId) (public_key : PublicKey)
  | dataUpdate (account_id : AccountId) (key : String) (value : String)
  | dataDeletion (account_id : AccountId) (key : String)
  | contractCodeUpdate (account_id : AccountId) (code : List Nat)
  | contractCodeDeletion (account_id : AccountId)
deriving DecidableEq, Repr

/-- The serde `tag = "type"` discriminant (snake_case variant name). -/
def StateChangeValueView.typeTag : StateChangeValueView → String
  | .accountUpdate _ _ => "account_update"
  | .accountDeletion _ => "account_deletion"
  | .accessKeyUpdate _ _ _ => "access_key_update"
  | .accessKeyDeletion _ _ => "access_key_deletion"
  | .dataUpdate _ _ _ => "data_update"
  | .dataDeletion _ _ => "data_deletion"
  | .contractCodeUpdate _ _ => "contract_code_update"
  | .contractCodeDeletion _ => "contract_code_deletion"

/-- The serde `content = "change"` object: each variant's fields in
declaration order, `account_id` serialized as a JSON string. -/
def StateChangeValueView.changeJson : StateChangeValueView → Json
  | .accountUpdate a acct =>
    .obj [("account_id", .str a.id), ("account", acct.toJson)]
  | .accountDeletion a =>
    .obj [("account_id", .str a.id)]
  | .accessKeyUpdate a pk ak =>
    .obj [("account_id", .str a.id), ("public_key", .str pk.key),
          ("access_key", ak.toJson)]
  | .accessKeyDeletion a pk =>
    .obj [("account_id", .str a.id), ("public_key", .str pk.key)]
  | .dataUpdate a k v =>
    .obj [("account_id", .str a.id), ("key_base64", .str k),
          ("value_base64", .str v)]
  | .dataDeletion a k =>
    .obj [("account_id", .str a.id), ("key_base64", .str k)]
  | .contractCodeUpdate a code =>
    .obj [("account_id", .str a.id), ("code_base64", .arr (code.map .num))]
  | .contractCodeDeletion a =>
    .obj [("account_id", .str a.id)]

/-- `views::StateChangeWithCauseView`: a cause plus the tagged value. -/
structure StateChangeWithCauseView where
  cause : StateChangeCauseView
  value : StateChangeValueView
deriving DecidableEq, Repr

/-- `serde_json::to_value` of a `StateChangeWithCauseView`: the `value` field
is `#[serde(flatten)]`ed as adjacently tagged `type`/`change` next to
`cause`. -/
def StateChangeWithCauseView.toJson (sc : StateChangeWithCauseView) : Json :=
  .obj [("cause", sc.cause.toJson),
        ("type", .str sc.value.typeTag),
        ("change", sc.value.changeJson)]

/-- Lines 117-120 of `src/main.rs`: serialize the state change and read
`value["change"]["account_id"].as_str()`; `none` models the `unwrap` panic. -/
def extractAccountId (sc : StateChangeWithCauseView) : Option String :=
  let value := sc.toJson
  ((value.index "change").index "account_id").asStr

/-- `is_change_watched` (lines 109-124): extract the affected account id and
check `watching_list.contains`; `none` models the `unwrap` panic. -/
def is_change_watched (sc : StateChangeWithCauseView) (watching_list : List String) :
    Option Bool :=
  (extractAccountId sc).map (fun account_id => watching_list.contains account_id)

/-- Spec-side owner extraction (`owner_of` in §4.3 of the design): the
`account_id` every variant carries, read off directly from the variant. -/
def owner_of (sc : StateChangeWithCauseView) : AccountId :=
  match sc.value with
  | .accountUpdate a _ => a
  | .accountDeletion a => a
  | .accessKeyUpdate a _ _ => a
  | .accessKeyDeletion a _ => a
  | .dataUpdate a _ _ => a
  | .dataDeletion a _ => a
  | .contractCodeUpdate a _ => a
  | .contractCodeDeletion a => a

/-- Block header: the only field the watcher reads is `height` (a `u64`). -/
structure BlockHeaderView where
  height : Nat
deriving DecidableEq, Repr

/-- Block view: header plus fields the watcher never reads. -/
structure BlockView where
  header : BlockHeaderView
deriving DecidableEq, Repr

/-- `IndexerShard`: shard id and the ordered state changes of this shard. -/
structure IndexerShard where
  shard_id : Nat
  state_changes : List StateChangeWithCauseView
deriving DecidableEq, Repr

/-- `near_indexer_primitives::StreamerMessage`: one block with its shards,
as delivered by the lake framework stream. -/
structure StreamerMessage where
  block : BlockView
  shards : List IndexerShard
deriving DecidableEq, Repr

/-- One emitted match: the two `println!` lines of lines 98-103 print the
block height, the `"type"` discriminant, and the serialized change. -/
structure MatchEvent where
  height : Nat
  typeTag : Json
  changes : Json

/-- The `MatchEvent` printed for `state_change` inside block `msg`. -/
def mkEvent (msg : StreamerMessage) (sc : StateChangeWithCauseView) : MatchEvent :=
  let changes_json := sc.toJson
  ⟨msg.block.header.height, changes_json.index "type", changes_json⟩

/-- Inner loop of `handle_streamer_message` (lines 89-105): walk the state
changes of one shard in order, emitting an event for each watched change;
`none` models a panic inside `is_change_watched`. -/
def processStateChanges (msg : StreamerMessage) (watching_list : List String) :
    List StateChangeWithCauseView → Option (List MatchEvent)
  | [] => some []
  | sc :: rest =>
    match is_change_watched sc watching_list with
    | none => none
    | some w =>
      match processStateChanges msg watching_list rest with
      | none => none
      | some tail => some (if w then mkEvent msg sc :: tail else tail)

/-- Outer loop of `handle_streamer_message` (line 88): walk the shards in
delivered order. -/
def processShards (msg : StreamerMessage) (watching_list : List String) :
    List IndexerShard → Option (List MatchEvent)
  | [] => some []
  | shard :: rest =>
    match processStateChanges msg watching_list shard.state_changes with
    | none => none
    | some evs =>
      match processShards msg watching_list rest with
      | none => none
      | some tail => some (evs ++ tail)

/-- `handle_streamer_message` (lines 83-107): the events printed for one
`StreamerMessage`, in print order; `none` models a panic. -/
def handle_streamer_message (msg : StreamerMessage) (watching_list : List String) :
    Option (List MatchEvent) :=
  processShards msg watching_list msg.shards

/-- The concurrency bound of the stream driver: `buffer_unordered(1usize)`
on line 71 of `src/main.rs`. -/
def bufferBound : Nat := 1

/-- The driver loop of `main` (lines 69-74): with `buffer_unordered(1)` the
handler futures run one at a time in arrival order, so the run over a finite
delivered prefix is the in-order concatenation of per-block emissions;
`none` models a panic in a handler. -/
def runPipeline (watching_list : List String) :
    List StreamerMessage → Option (List MatchEvent)
  | [] => some []
  | msg :: rest =>
    match handle_streamer_message msg watching_list with
    | none => none
    | some evs =>
      match runPipeline watching_list rest with
      | none => none
      | some tail => some (evs ++ tail)

/-- The `map`/`collect` of lines 34-42, entry by entry: validate each raw
entry via `AccountId::from_str` and render it back to a `String`; `none`
models the `expect("AccountId is invalid")` panic on the first bad entry. -/
def parseEntries : List String → Option (List String)
  | [] => some []
  | elem :: rest =>
    match AccountId.from_str elem with
    | none => none
    | some a =>
      match parseEntries rest with
      | none => none
      | some tail => some (a.render :: tail)

/-- Rust's `str::split(',')` on the character list: the pieces between
commas, in order; the empty input yields one empty piece, and consecutive
commas yield empty pieces. -/
def splitComma : List Char → List (List Char)
  | [] => [[]]
  | c :: rest =>
    if c = ',' then [] :: splitComma rest
    else
      match splitComma rest with
      | [] => [[c]]
      | piece :: pieces => (c :: piece) :: pieces

/-- `opts.accounts.split(',')` (line 36). -/
def splitAccounts (accounts : String) : List String :=
  (splitComma accounts.data).map String.mk

/-- Watch-list construction (lines 34-42): split the `--accounts` string on
`,` and validate every entry. -/
def parseWatchingList (accounts : String) : Option (List String) :=
  parseEntries (splitAccounts accounts)

/-- `main` (lines 24-77), restricted to the pipeline: build the watch list,
then run the stream handler over the delivered blocks.  Construction
precedes any stream consumption, so a failed construction yields `none`
whatever the feed holds. -/
def mainPipeline (accounts : String) (msgs : List StreamerMessage) :
    Option (List MatchEvent) :=
  match parseWatchingList accounts with
  | none => none
  | some watching_list => runPipeline watching_list msgs

/-- Spec-side emission (§4.4): the records of the block in discovery order
(shards in delivered order, records in delivered order inside a shard),
filtered by watch-list membership, each mapped to its event. -/
def discoveryOrderEvents (msg : StreamerMessage) (watching_list : List String) :
    List MatchEvent :=
  (((msg.shards.map IndexerShard.state_changes).flatten).filter
      (fun sc => watching_list.contains (owner_of sc).id)).map (mkEvent msg)

/-- Spec-side whole-stream emission: per-block discovery-order events,
concatenated in arrival order. -/
def streamEvents (watching_list : List String) (msgs : List StreamerMessage) :
    List MatchEvent :=
  (msgs.map (fun msg => discoveryOrderEvents msg watching_list)).flatten

/-- State of the stream driver: blocks not yet pulled from the feed, blocks
currently in flight, and the events emitted so far. -/
structure DriverState where
  pending : List StreamerMessage
  inFlight : List StreamerMessage
  emitted : List MatchEvent

/-- One step of the driver of lines 69-74: either pull the next block from
the feed into the in-flight set (only when a slot is free, i.e. fewer than
`bufferBound` blocks are in flight), or complete any in-flight block,
appending its events.  Completion may pick any in-flight block, modelling
`buffer_unordered`. -/
inductive DriverStep (watching_list : List String) : DriverState → DriverState → Prop
  | start (b : StreamerMessage) (rest : List StreamerMessage)
      (flight : List StreamerMessage) (out : List MatchEvent) :
      flight.length < bufferBound →
      DriverStep watching_list ⟨b :: rest, flight, out⟩ ⟨rest, flight ++ [b], out⟩
  | finish (p : List StreamerMessage) (l1 l2 : List StreamerMessage)
      (b : StreamerMessage) (out : List MatchEvent) (evs : List MatchEvent) :
      handle_streamer_message b watching_list = some evs →
      DriverStep watching_list ⟨p, l1 ++ b :: l2, out⟩ ⟨p, l1 ++ l2, out ++ evs⟩

/-! ### Helper lemmas relating the JSON path to the record model -/

theorem extractAccountId_eq (sc : StateChangeWithCauseView) :
    extractAccountId sc = some (owner_of sc).id := by
  obtain ⟨cause, value⟩ := sc
  cases value <;> rfl

theorem is_change_watched_eq (sc : StateChangeWithCauseView)
    (watching_list : List String) :
    is_change_watched sc watching_list
      = some (watching_list.contains (owner_of sc).id) := by
  simp [is_change_watched, extractAccountId_eq]

theorem contains_iff_mem (l : List String) (a : String) :
    l.contains a = true ↔ a ∈ l :=
  List.elem_iff

theorem processStateChanges_eq (msg : StreamerMessage)
    (watching_list : List String) (l : List StateChangeWithCauseView) :
    processStateChanges msg watching_list l
      = some ((l.filter
          (fun sc => watching_list.contains (owner_of sc).id)).map (mkEvent msg)) := by
  induction l with
  | nil => rfl
  | cons sc rest ih =>
    simp only [processStateChanges, is_change_watched_eq, ih, List.filter_cons]
    by_cases h : (owner_of sc).id ∈ watching_list <;> simp [h]

theorem processShards_eq (msg : StreamerMessage) (watching_list : List String)
    (shards : List IndexerShard) :
    processShards msg watching_list shards
      = some (((((shards.map IndexerShard.state_changes).flatten).filter
          (fun sc => watching_list.contains (owner_of sc).id)).map (mkEvent msg))) := by
  induction shards with
  | nil => rfl
  | cons shard rest ih =>
    simp [processShards, processStateChanges_eq, ih, List.filter_append]

theorem handle_streamer_message_eq (msg : StreamerMessage)
    (watching_list : List String) :
    handle_streamer_message msg watching_list
      = some (discoveryOrderEvents msg watching_list) := by
  simp [handle_streamer_message, processShards_eq, discoveryOrderEvents]

theorem runPipeline_eq (watching_list : List String)
    (msgs : List StreamerMessage) :
    runPipeline watching_list msgs = some (streamEvents watching_list msgs) := by
  induction msgs with
  | nil => rfl
  | cons msg rest ih =>
    simp [runPipeline, handle_streamer_message_eq, ih, streamEvents]

theorem parseEntries_none_of_invalid (l : List String)
    (h : ∃ e ∈ l, AccountId.validate e = false) : parseEntries l = none := by
  induction l with
  | nil => simp at h
  | cons e rest ih =>
    obtain ⟨e0, he0, hv⟩ := h
    rcases List.mem_cons.mp he0 with rfl | hmem
    · simp [parseEntries, AccountId.from_str, hv]
    · unfold parseEntries
      cases hfs : AccountId.from_str e with
      | none => rfl
      | some a => rw [ih ⟨e0, hmem, hv⟩]

theorem parseEntries_all_valid (l : List String) (W : List String)
    (h : parseEntries l = some W) : ∀ a ∈ W, AccountId.validate a = true := by
  induction l generalizing W with
  | nil =>
    simp only [parseEntries, Option.some.injEq] at h
    subst h; simp
  | cons e rest ih =>
    unfold parseEntries at h
    cases hfs : AccountId.from_str e with
    | none => rw [hfs] at h; cases h
    | some a =>
      rw [hfs] at h
      cases hrest : parseEntries rest with
      | none => rw [hrest] at h; cases h
      | some tail =>
        rw [hrest] at h
        cases h
        intro x hx
        rcases List.mem_cons.mp hx with rfl | hmem
        · unfold AccountId.from_str at hfs
          by_cases hv : AccountId.validate e
          · simp [hv] at hfs
            cases hfs
            simpa [AccountId.render] using hv
          · simp [hv] at hfs
        · exact ih tail hrest x hmem

/-! ### Concrete sample data for the witnesses -/

/-- A sample cause tag (never read by the watcher). -/
def sampleCause : StateChangeCauseView := ⟨"receipt_processing"⟩

/-- A `DataUpdate` record touching `alice.near`. -/
def aliceChange : StateChangeWithCauseView :=
  ⟨sampleCause, .dataUpdate ⟨"alice.near"⟩ "a2V5" "dmFsdWU"⟩

/-- An `AccountUpdate` record touching `bob.near`. -/
def bobChange : StateChangeWithCauseView :=
  ⟨sampleCause, .accountUpdate ⟨"bob.near"⟩ ⟨10, 0, "2rYyrcvyEhCgmHzwbrQhdz6U6F9fzzcaJXKumoJBKQrv", 182⟩⟩

/-- A block at height 100 with one shard holding the two records above. -/
def sampleBlock : StreamerMessage := ⟨⟨⟨100⟩⟩, [⟨0, [aliceChange, bobChange]⟩]⟩

/-- The watch list containing only `alice.near`. -/
def sampleWatchList : List String := ["alice.near"]

/-! ### Claims -/

/-- C1: for every watch-list `W` and state-change record `sc`, the matcher's
verdict is exactly membership of the record's owning account in `W` (wrapped
in `some`, since the extraction never panics), and the empty watch-list makes
the verdict `some false` for every record. -/
theorem is_watched_iff_owner_mem (sc : StateChangeWithCauseView) (W : List String) :
    (is_change_watched sc W = some true ↔ (owner_of sc).render ∈ W)
      ∧ is_change_watched sc [] = some false := by
  constructor
  · rw [is_change_watched_eq]
    simp [AccountId.render, List.elem_iff]
  · rw [is_change_watched_eq]
    rfl

/-- C1 witness: the `alice.near` record is watched under `{alice.near}`. -/
theorem is_watched_iff_owner_mem_witness :
    is_change_watched aliceChange sampleWatchList = some true :=
  (is_watched_iff_owner_mem aliceChange sampleWatchList).1.mpr (by decide)

/-- C2: the owner extraction taken by `is_change_watched` is total over the
closed set of eight state-change kinds and returns exactly the `account_id`
embedded in the kind's payload; a validated account id is in particular
never the empty string. -/
theorem owner_extraction_total (sc : StateChangeWithCauseView) :
    extractAccountId sc = some (owner_of sc).render
      ∧ (AccountId.validate (owner_of sc).render = true → (owner_of sc).render ≠ "") := by
  refine ⟨extractAccountId_eq sc, fun hv he => ?_⟩
  rw [he] at hv
  exact absurd hv (by decide)

/-- C2 witness: extraction on a concrete `DataUpdate` record. -/
theorem owner_extraction_total_witness :
    extractAccountId aliceChange = some "alice.near" ∧ ("alice.near" : String) ≠ "" :=
  ⟨(owner_extraction_total aliceChange).1,
    (owner_extraction_total aliceChange).2 (by decide)⟩

/-- C3: processing one block emits exactly the block's watched records, each
once, in discovery order — shards in delivered order and records in
delivered order within a shard — i.e. the discovery-order filter-and-map of
the block. -/
theorem handle_emits_discovery_order (msg : StreamerMessage) (W : List String) :
    handle_streamer_message msg W = some (discoveryOrderEvents msg W) :=
  handle_streamer_message_eq msg W

/-- C4: every event emitted while processing a block carries the height of
that block's own header. -/
theorem event_height_from_own_block (msg : StreamerMessage) (W : List String)
    (evs : List MatchEvent) (h : handle_streamer_message msg W = some evs) :
    ∀ e ∈ evs, e.height = msg.block.header.height := by
  rw [handle_streamer_message_eq] at h
  injection h with h
  subst h
  intro e he
  simp only [discoveryOrderEvents, List.mem_map] at he
  obtain ⟨sc, _, rfl⟩ := he
  rfl

/-- C4 witness: the event of the concrete block is tagged with height 100,
the block's own header height. -/
theorem event_height_from_own_block_witness :
    (mkEvent sampleBlock aliceChange).height = sampleBlock.block.header.height :=
  event_height_from_own_block sampleBlock sampleWatchList
    [mkEvent sampleBlock aliceChange] (by rfl)
    (mkEvent sampleBlock aliceChange) (List.mem_singleton.mpr rfl)

/-- C5: watch-list construction is all-or-nothing: a single invalid raw
entry makes construction fail (the `expect` panic, modelled as `none`)
before any block is consumed — the whole pipeline yields nothing whatever
the feed holds — and a successful construction contains only entries that
passed validation, never a partial list. -/
theorem watchlist_all_or_nothing (accounts : String) :
    ((∃ e ∈ splitAccounts accounts, AccountId.validate e = false) →
      parseWatchingList accounts = none
        ∧ ∀ msgs : List StreamerMessage, mainPipeline accounts msgs = none)
      ∧ (∀ W : List String, parseWatchingList accounts = some W →
          ∀ a ∈ W, AccountId.validate a = true) := by
  constructor
  · intro h
    have hp : parseWatchingList accounts = none :=
      parseEntries_none_of_invalid _ h
    exact ⟨hp, fun msgs => by simp [mainPipeline, hp]⟩
  · intro W hW
    exact parseEntries_all_valid _ W hW

/-- C5 witness: the spec's scenario entry `"not a valid id!!"` makes
construction, and hence the whole pipeline, fail. -/
theorem watchlist_all_or_nothing_witness :
    parseWatchingList "not a valid id!!" = none
      ∧ mainPipeline "not a valid id!!" [sampleBlock] = none := by
  have h := (watchlist_all_or_nothing "not a valid id!!").1
    ⟨"not a valid id!!", by decide, by decide⟩
  exact ⟨h.1, h.2 [sampleBlock]⟩

/-- C6 counterexample: with the empty `--accounts` input, the split yields
the single empty entry, which fails account-id validation, so watch-list
construction fails instead of succeeding as the claim states. -/
theorem empty_accounts_construction_fails :
    parseWatchingList "" = none := by decide

/-- C6 (amended): constructing from the empty accounts input fails (the
empty entry fails validation); nevertheless a pipeline run with an empty
watch-list emits no event for any sequence of delivered blocks. -/
theorem empty_watchlist_matches_nothing :
    parseWatchingList "" = none
      ∧ ∀ msgs : List StreamerMessage, runPipeline [] msgs = some [] := by
  refine ⟨by decide, fun msgs => ?_⟩
  rw [runPipeline_eq]
  suffices h : streamEvents [] msgs = [] by rw [h]
  simp [streamEvents, discoveryOrderEvents, List.filter_eq_nil_iff]

/-- C7: account-id validation is idempotent: validating the same raw string
twice yields the same `AccountId`, and re-validating the rendered form of an
already-validated id returns it unchanged. -/
theorem from_str_idempotent (s : String) (a : AccountId)
    (h : AccountId.from_str s = some a) :
    AccountId.from_str s = some a ∧ AccountId.from_str a.render = some a := by
  refine ⟨h, ?_⟩
  unfold AccountId.from_str at h
  by_cases hv : AccountId.validate s
  · rw [if_pos hv] at h
    injection h with h
    subst h
    simp [AccountId.render, AccountId.from_str, hv]
  · rw [if_neg hv] at h
    cases h

/-- C7 witness: idempotence at the concrete id `alice.near`. -/
theorem from_str_idempotent_witness :
    AccountId.from_str "alice.near" = some ⟨"alice.near"⟩
      ∧ AccountId.from_str (AccountId.render ⟨"alice.near"⟩) = some ⟨"alice.near"⟩ :=
  from_str_idempotent "alice.near" ⟨"alice.near"⟩ (by decide)

theorem driver_reachable_invariant (W : List String) (msgs : List StreamerMessage)
    (s : DriverState)
    (h : Relation.ReflTransGen (DriverStep W) ⟨msgs, [], []⟩ s) :
    s.inFlight.length ≤ bufferBound
      ∧ s.emitted ++ streamEvents W (s.inFlight ++ s.pending)
          = streamEvents W msgs := by
  induction h with
  | refl => simp [bufferBound]
  | tail hr step ih =>
    obtain ⟨ihb, ihe⟩ := ih
    cases step with
    | start b rest flight out hlt =>
      refine ⟨by simpa using hlt, ?_⟩
      simpa [List.append_assoc] using ihe
    | finish p l1 l2 b out evs hev =>
      have hlen : (l1 ++ b :: l2).length ≤ 1 := by
        simpa [bufferBound] using ihb
      rw [List.length_append, List.length_cons] at hlen
      have hl1 : l1 = [] := List.eq_nil_of_length_eq_zero (by omega)
      have hl2 : l2 = [] := List.eq_nil_of_length_eq_zero (by omega)
      subst hl1
      subst hl2
      rw [handle_streamer_message_eq] at hev
      injection hev with hev
      subst hev
      refine ⟨by simp [bufferBound], ?_⟩
      have hstream : streamEvents W (b :: p)
          = discoveryOrderEvents b W ++ streamEvents W p := by
        simp [streamEvents]
      simp only [List.nil_append, List.singleton_append] at ihe ⊢
      rw [hstream] at ihe
      rw [List.append_assoc]
      exact ihe

/-- C8: along every run of the stream driver the number of in-flight blocks
never exceeds the `buffer_unordered(1)` bound, and a completed run (feed
drained, nothing in flight) has emitted exactly what strictly-in-arrival-
order block-by-block processing emits. -/
theorem driver_bounded_and_in_order (W : List String) (msgs : List StreamerMessage)
    (s : DriverState)
    (h : Relation.ReflTransGen (DriverStep W) ⟨msgs, [], []⟩ s) :
    s.inFlight.length ≤ bufferBound
      ∧ (s.pending = [] → s.inFlight = [] →
          runPipeline W msgs = some s.emitted) := by
  obtain ⟨hb, he⟩ := driver_reachable_invariant W msgs s h
  refine ⟨hb, fun hp hf => ?_⟩
  rw [hp, hf] at he
  have he2 : s.emitted = streamEvents W msgs := by
    simpa [streamEvents] using he
  rw [runPipeline_eq, he2]

/-- C8 witness: a complete two-step driver run over one concrete block ends
with exactly the sequential emission and never exceeds the bound. -/
theorem driver_bounded_and_in_order_witness :
    (DriverState.mk [] [] (discoveryOrderEvents sampleBlock sampleWatchList)).inFlight.length
        ≤ bufferBound
      ∧ runPipeline sampleWatchList [sampleBlock]
          = some (DriverState.mk [] []
              (discoveryOrderEvents sampleBlock sampleWatchList)).emitted := by
  have hrun : Relation.ReflTransGen (DriverStep sampleWatchList)
      ⟨[sampleBlock], [], []⟩
      ⟨[], [], discoveryOrderEvents sampleBlock sampleWatchList⟩ := by
    refine Relation.ReflTransGen.head
      (DriverStep.start sampleBlock [] [] [] (by decide)) ?_
    exact Relation.ReflTransGen.single
      (DriverStep.finish [] [] [] sampleBlock []
        (discoveryOrderEvents sampleBlock sampleWatchList)
        (handle_streamer_message_eq sampleBlock sampleWatchList))
  have h := driver_bounded_and_in_order sampleWatchList [sampleBlock] _ hrun
  exact ⟨h.1, h.2 rfl rfl⟩

/-- C9: the pipeline is stateless across blocks: after any prefix of
delivered blocks, the events contributed by the next block are
`handle_streamer_message` of that block and the watch-list alone,
independent of the prefix. -/
theorem pipeline_stateless (W : List String) (pre : List StreamerMessage)
    (b : StreamerMessage) :
    runPipeline W (pre ++ [b])
      = (runPipeline W pre).bind
          (fun evs => (handle_streamer_message b W).map (fun tail => evs ++ tail)) := by
  rw [runPipeline_eq, runPipeline_eq, handle_streamer_message_eq]
  simp [streamEvents]

/-- C10: the matching verdict depends only on which account strings are in
the watch-list, not on order or multiplicity: watch-lists with the same
members agree on every record. -/
theorem matching_depends_on_set (sc : StateChangeWithCauseView)
    (W1 W2 : List String) (h : ∀ a : String, a ∈ W1 ↔ a ∈ W2) :
    is_change_watched sc W1 = is_change_watched sc W2 := by
  rw [is_change_watched_eq, is_change_watched_eq]
  have hb : W1.contains (owner_of sc).id = W2.contains (owner_of sc).id := by
    rw [Bool.eq_iff_iff, contains_iff_mem, contains_iff_mem]
    exact h _
  rw [hb]

/-- C10 witness: a permuted, duplicated watch-list gives the same verdict on
the concrete record. -/
theorem matching_depends_on_set_witness :
    is_change_watched aliceChange ["alice.near", "bob.near"]
      = is_change_watched aliceChange ["bob.near", "alice.near", "alice.near"] :=
  matching_depends_on_set aliceChange _ _
    (by
      intro a
      simp only [List.mem_cons, List.not_mem_nil, or_false]
      tauto)
